import Mathlib

/-!
Verification development for the paper-mentat multi-source resolution and
enrichment pipeline (src/paper_mentat/).  The definitions below are a shallow
embedding of the Python source: pure functions become Lean functions, the
network/API layer becomes an explicit record of response functions, raised
exceptions become `Except.error`, and wall-clock readings become explicit
rational-number parameters.  Python string truthiness (empty string is falsy)
is modelled explicitly by the helpers `pyBool` / `truthy` / `pyOrStr`.
-/

set_option maxRecDepth 8000
set_option maxHeartbeats 1000000

namespace PaperMentat

/-- models.py: ProcessingState enum. -/
inductive ProcessingState where
  | new
  | triaged
  | metadata_extracted
  | oa_verified
  | completed
  | failed
  deriving DecidableEq, Repr

/-- models.py: OAColor enum. -/
inductive OAColor where
  | gold
  | green
  | hybrid
  | bronze
  | closed
  | unknown
  deriving DecidableEq, Repr

/-- models.py: the `.value` string of an OAColor member. -/
def OAColor.value : OAColor → String
  | .gold => "gold"
  | .green => "green"
  | .hybrid => "hybrid"
  | .bronze => "bronze"
  | .closed => "closed"
  | .unknown => "unknown"

/-- models.py: PaperMetadata dataclass (field defaults as in the source). -/
structure PaperMetadata where
  title : String
  authors : List String := []
  doi : Option String := none
  arxiv_id : Option String := none
  publication_year : Option Int := none
  journal : Option String := none
  abstract : Option String := none
  keywords : List String := []
  oa_status : Option OAColor := none
  oa_url : Option String := none
  license : Option String := none
  deriving DecidableEq, Repr

/-- models.py: ProcessingResult dataclass.  `processing_time` (a Python float
holding a difference of wall-clock readings) is modelled as a rational. -/
structure ProcessingResult where
  url : String
  state : ProcessingState := .new
  metadata : Option PaperMetadata := none
  error_message : Option String := none
  processing_time : ℚ := 0
  deriving DecidableEq, Repr

/-! ### Python semantics helpers -/

/-- Python truthiness of an `Optional[str]`: `None` and `""` are falsy. -/
def pyBool : Option String → Bool
  | none => false
  | some s => s ≠ ""

/-- Python `x or y` for `x : Optional[str]`, `y : str`. -/
def pyOrStr (x : Option String) (y : String) : String :=
  match x with
  | none => y
  | some s => if s = "" then y else s

/-- Python `x or y` for two `Optional[str]` values. -/
def pyOrOpt (x y : Option String) : Option String :=
  match x with
  | none => y
  | some s => if s = "" then y else some s

/-- The truthy content of an `Optional[str]`: `none` when falsy. -/
def truthy : Option String → Option String
  | none => none
  | some s => if s = "" then none else some s

/-- Python `\s` (ASCII model): space, tab, newline, carriage return,
vertical tab, form feed. -/
def isPySpace (c : Char) : Bool :=
  c = ' ' || c = '\t' || c = '\n' || c = '\r' || c.toNat = 11 || c.toNat = 12

/-- Python `\w` (ASCII model): alphanumeric or underscore. -/
def isPyWord (c : Char) : Bool :=
  c.isAlphanum || c = '_'

/-- Python `str.strip()`: remove leading and trailing whitespace. -/
def pyStrip (s : String) : String :=
  String.mk (((s.data.dropWhile isPySpace).reverse.dropWhile isPySpace).reverse)

/-- framework.py: `s.rstrip(".,;)")` used on extracted DOIs and URLs. -/
def rstripPunct (s : String) : String :=
  String.mk ((s.data.reverse.dropWhile
    (fun c => c = '.' || c = ',' || c = ';' || c = ')')).reverse)

/-- Substring test (`needle in hay` in Python). -/
def listContainsSub (needle : List Char) : List Char → Bool
  | [] => needle.isEmpty
  | c :: rest => needle.isPrefixOf (c :: rest) || listContainsSub needle rest

/-- Python `needle in hay` on strings. -/
def strContains (hay needle : String) : Bool :=
  listContainsSub needle.data hay.data

/-- Python `s.startswith(pre)`. -/
def pyStartsWith (s pre : String) : Bool :=
  pre.data.isPrefixOf s.data

/-- Python `s.endswith(suf)`. -/
def pyEndsWith (s suf : String) : Bool :=
  suf.data.isSuffixOf s.data

/-- Python `s[n:]` (drop the first `n` characters). -/
def pyDropChars (s : String) (n : Nat) : String :=
  String.mk (s.data.drop n)

/-- Python `s.replace(old, new)` for a non-empty `old`: replace all
occurrences, scanning left to right without overlap.  Fuel is the input
length. -/
def pyReplaceGo (old new : List Char) : Nat → List Char → List Char
  | 0, l => l
  | _ + 1, [] => []
  | fuel + 1, c :: rest =>
    if old.isPrefixOf (c :: rest) then
      new ++ pyReplaceGo old new fuel ((c :: rest).drop old.length)
    else c :: pyReplaceGo old new fuel rest

def pyReplace (s old new : String) : String :=
  String.mk (pyReplaceGo old.data new.data s.data.length s.data)

/-! ### Regex scanners

Each scanner implements the exact regular expression used by the source,
with Python re semantics (leftmost, non-overlapping, greedy). -/

/-- Helper for apis.py line 76: does `pat` occur here followed by a digit
(the regex alternatives are each a literal followed by at least one digit)? -/
def matchLitDigit (pat : List Char) (l : List Char) : Bool :=
  pat.isPrefixOf l &&
    (match (l.drop pat.length).head? with
     | some c => c.isDigit
     | none => false)

/-- apis.py line 76: the component-DOI test, regex
`/fig-\d+|/table-\d+|/supp-\d+` searched anywhere in the DOI. -/
def hasComponentSuffix : List Char → Bool
  | [] => false
  | c :: rest =>
    matchLitDigit "/fig-".data (c :: rest) ||
    matchLitDigit "/table-".data (c :: rest) ||
    matchLitDigit "/supp-".data (c :: rest) ||
    hasComponentSuffix rest

/-- apis.py line 93: `re.sub(r"<[^>]+>", "", abstract)` — strip JATS tags.
A `<` with at least one non-`>` character before the next `>` is removed
together with that span; fuel is the input length. -/
def stripTagsGo : Nat → List Char → List Char
  | 0, l => l
  | _ + 1, [] => []
  | fuel + 1, c :: rest =>
    if c = '<' then
      let body := rest.takeWhile (fun d => d ≠ '>')
      let after := rest.drop body.length
      match after with
      | '>' :: tail =>
        if body = [] then c :: stripTagsGo fuel rest
        else stripTagsGo fuel tail
      | _ => c :: stripTagsGo fuel rest
    else c :: stripTagsGo fuel rest

/-- Strip embedded `<...>` markup tags (apis.py line 93). -/
def stripTags (s : String) : String :=
  String.mk (stripTagsGo s.data.length s.data)

/-- One attempted match of `10\.\d{4,9}/[^\s]+` at the head of the input.
Returns the matched characters and the remaining input on success. -/
def doiMatchAt (l : List Char) : Option (List Char × List Char) :=
  match l with
  | '1' :: '0' :: '.' :: rest =>
    let ds := rest.takeWhile Char.isDigit
    if 4 ≤ ds.length ∧ ds.length ≤ 9 then
      match rest.drop ds.length with
      | '/' :: rest3 =>
        let body := rest3.takeWhile (fun c => !isPySpace c)
        if body = [] then none
        else some ('1' :: '0' :: '.' :: (ds ++ '/' :: body), rest3.drop body.length)
      | _ => none
    else none
  | _ => none

/-- `re.findall(r"10\.\d{4,9}/[^\s]+", text)` (framework.py line 143);
also gives the first match for `re.search` of the same pattern.  Fuel is the
input length: each step either consumes a match or advances one character. -/
def findallDoisGo : Nat → List Char → List String
  | 0, _ => []
  | _ + 1, [] => []
  | fuel + 1, c :: rest =>
    match doiMatchAt (c :: rest) with
    | some (m, rest2) => String.mk m :: findallDoisGo fuel rest2
    | none => findallDoisGo fuel rest

def findallDois (s : String) : List String :=
  findallDoisGo s.data.length s.data

/-- One attempted match of `https?://[^\s<>\x22]+` at the head of the input. -/
def urlMatchAt (l : List Char) : Option (List Char × List Char) :=
  match l with
  | 'h' :: 't' :: 't' :: 'p' :: rest =>
    let step : List Char → List Char → Option (List Char × List Char) :=
      fun sPart afterScheme =>
        if ("://".data).isPrefixOf afterScheme then
          let rest3 := afterScheme.drop 3
          let body := rest3.takeWhile
            (fun c => !isPySpace c && c ≠ '<' && c ≠ '>' && c ≠ '"')
          if body = [] then none
          else some ('h' :: 't' :: 't' :: 'p' :: sPart ++ "://".data ++ body,
                     rest3.drop body.length)
        else none
    match rest with
    | 's' :: rest2 => step ['s'] rest2
    | _ => step [] rest
  | _ => none

/-- `re.findall(r"https?://[^\s<>\x22]+", text)` (framework.py line 146). -/
def findallUrlsGo : Nat → List Char → List String
  | 0, _ => []
  | _ + 1, [] => []
  | fuel + 1, c :: rest =>
    match urlMatchAt (c :: rest) with
    | some (m, rest2) => String.mk m :: findallUrlsGo fuel rest2
    | none => findallUrlsGo fuel rest

def findallUrls (s : String) : List String :=
  findallUrlsGo s.data.length s.data

/-- `re.search(r"arxiv\.org/abs/(\S+)", url)` (framework.py line 184):
the captured group of the first match, if any. -/
def arxivAbsMatch : List Char → Option String
  | [] => none
  | c :: rest =>
    if ("arxiv.org/abs/".data).isPrefixOf (c :: rest) then
      let body := ((c :: rest).drop 14).takeWhile (fun d => !isPySpace d)
      if body = [] then arxivAbsMatch rest else some (String.mk body)
    else arxivAbsMatch rest

/-- `re.search(r"arxiv\.org/abs/(.+)", arxiv_url)` (apis.py line 228):
`.` does not match a newline, and is greedy to the end of the line. -/
def arxivIdMatch : List Char → Option String
  | [] => none
  | c :: rest =>
    if ("arxiv.org/abs/".data).isPrefixOf (c :: rest) then
      let body := ((c :: rest).drop 14).takeWhile (fun d => d ≠ '\n')
      if body = [] then arxivIdMatch rest else some (String.mk body)
    else arxivIdMatch rest

/-! ### Provider raw items (the JSON / XML shapes the adapters consume) -/

/-- One Crossref author object: `a.get("given", "")` / `a.get("family", "")`. -/
structure CrossrefAuthor where
  given : String := ""
  family : String := ""
  deriving DecidableEq, Repr

/-- A Crossref work item, restricted to the keys the adapter reads.
`item.get(field, {}).get("date-parts", [[]])` is modelled by an optional
list of integer lists with default `[[]]`; a JSON null year is modelled
as 0, which is falsy in the source's `if parts[0][0]` test. -/
structure CrossrefItem where
  title : List String := []
  DOI : Option String := none
  author : List CrossrefAuthor := []
  published_print : Option (List (List Int)) := none
  published_online : Option (List (List Int)) := none
  created : Option (List (List Int)) := none
  container_title : List String := []
  abstract : String := ""
  deriving DecidableEq, Repr

/-- apis.py lines 84-88: first truthy `date-parts[0][0]` of one field. -/
def datePartsYear (parts : List (List Int)) : Option Int :=
  match parts with
  | (y :: _) :: _ => if y ≠ 0 then some y else none
  | _ => none

/-- apis.py lines 83-88: year from `published-print`, `published-online`,
`created`, in that priority order (loop with break on first truthy value). -/
def crossrefYear (item : CrossrefItem) : Option Int :=
  match datePartsYear (item.published_print.getD [[]]) with
  | some y => some y
  | none =>
    match datePartsYear (item.published_online.getD [[]]) with
    | some y => some y
    | none => datePartsYear (item.created.getD [[]])

/-- apis.py lines 69-101: `ScholarlyAPIClient.crossref_to_metadata`.
Returns `none` (Python `None`) for component DOIs (figures/tables/supplements);
the source annotates the return type as `PaperMetadata` but callers receive
`None` in that case. -/
def crossref_to_metadata (item : CrossrefItem) : Option PaperMetadata :=
  let title := match item.title with
    | [] => "Unknown"
    | t :: _ => t
  let doi := item.DOI.getD ""
  if hasComponentSuffix doi.data then none
  else
    let authors := (item.author.map
      (fun a => pyStrip (a.given ++ " " ++ a.family))).filter (fun n => n ≠ "")
    let abstract := item.abstract
    let abstract := if abstract ≠ "" then pyStrip (stripTags abstract) else abstract
    some { title := title
           authors := authors
           doi := item.DOI
           publication_year := crossrefYear item
           journal := item.container_title.head?
           abstract := if abstract ≠ "" then some abstract else none }

/-- The `open_access` sub-object of an OpenAlex work. -/
structure OpenAlexOA where
  is_oa : Bool := false
  oa_url : Option String := none
  deriving DecidableEq, Repr

/-- An OpenAlex work, restricted to the keys the adapter reads.  The chain
`(item.get("primary_location") or \x7b\x7d).get("source") ... display_name`
is flattened into one optional field. -/
structure OpenAlexWork where
  title : Option String := none
  authorships : List (Option String) := []
  publication_year : Option Int := none
  primary_source_display_name : Option String := none
  doi : Option String := none
  open_access : OpenAlexOA := {}
  deriving DecidableEq, Repr

/-- apis.py lines 158-189: `ScholarlyAPIClient.openalex_to_metadata`. -/
def openalex_to_metadata (item : OpenAlexWork) : PaperMetadata :=
  let title := pyOrStr item.title "Unknown"
  let authors := (item.authorships.filterMap id).filter (fun n => n ≠ "")
  let doi := match item.doi with
    | none => none
    | some d =>
      if d ≠ "" ∧ pyStartsWith d "https://doi.org/" then some (pyDropChars d 16) else some d
  let oa_status := if item.open_access.is_oa then some OAColor.green else none
  { title := title
    authors := authors
    doi := doi
    publication_year := item.publication_year
    journal := item.primary_source_display_name
    oa_status := oa_status
    oa_url := item.open_access.oa_url }

/-- The `best_oa_location` sub-object of an Unpaywall response. -/
structure BestOaLocation where
  url_for_pdf : Option String := none
  url : Option String := none
  license : Option String := none
  deriving DecidableEq, Repr

/-- An Unpaywall response, restricted to the keys the adapter reads. -/
structure UnpaywallResp where
  is_oa : Bool := false
  oa_status : String := ""
  best_oa_location : Option BestOaLocation := none
  deriving DecidableEq, Repr

/-- The dictionary returned by `unpaywall_oa_info`. -/
structure OaInfo where
  status : OAColor
  url : Option String
  license : Option String
  deriving DecidableEq, Repr

/-- apis.py lines 115-134: `ScholarlyAPIClient.unpaywall_oa_info`. -/
def unpaywall_oa_info (data : UnpaywallResp) : OaInfo :=
  if !data.is_oa then { status := .closed, url := none, license := none }
  else
    let oa_color := match data.oa_status with
      | "gold" => OAColor.gold
      | "green" => OAColor.green
      | "hybrid" => OAColor.hybrid
      | "bronze" => OAColor.bronze
      | _ => OAColor.unknown
    let best := data.best_oa_location.getD {}
    { status := oa_color
      url := pyOrOpt best.url_for_pdf best.url
      license := best.license }

/-- One parsed Atom entry of an arXiv API response (apis.py lines 214-238);
element texts are optional, mirroring the `is not None` checks. -/
structure AtomEntry where
  title : Option String := none
  author_names : List (Option String) := []
  summary : Option String := none
  id : Option String := none
  published : Option String := none
  deriving DecidableEq, Repr

/-- apis.py lines 233-237: `int(published_el.text[:4])` guarded by a
ValueError/TypeError handler (ASCII digits model of Python int parsing). -/
def pyIntPrefix4 (s : String) : Option Int :=
  let t := s.data.take 4
  if t ≠ [] ∧ t.all Char.isDigit then
    some (t.foldl (fun acc c => acc * 10 + (c.toNat - 48)) 0 : Nat)
  else none

/-- apis.py lines 214-247: the per-entry body of `arxiv_search`, converting
one Atom entry to PaperMetadata. -/
def atom_to_metadata (entry : AtomEntry) : PaperMetadata :=
  let title := match entry.title with
    | some t => pyReplace (pyStrip t) "\n" " "
    | none => "Unknown"
  let authors := (entry.author_names.filterMap id).map pyStrip
  let abstract := entry.summary.map pyStrip
  let arxiv_url := match entry.id with
    | some t => pyStrip t
    | none => ""
  let arxiv_id := arxivIdMatch arxiv_url.data
  let year := match entry.published with
    | some t => pyIntPrefix4 t
    | none => none
  let pdf_url := if arxiv_url ≠ "" then some (pyReplace arxiv_url "/abs/" "/pdf/") else none
  { title := title
    authors := authors
    arxiv_id := arxiv_id
    publication_year := year
    abstract := abstract
    oa_status := some OAColor.green
    oa_url := pdf_url }

/-! ### Configuration, API surface and OA enrichment (framework.py) -/

/-- The configuration keys the embedded functions read (framework.py
DEFAULT_CONFIG; `contact_email` defaults to the empty string). -/
structure Config where
  contact_email : String := ""
  deriving DecidableEq, Repr

/-- The network surface of `ScholarlyAPIClient` as seen by the framework:
each operation is a response function.  Search operations receive the query
and the max-results argument the framework passes. -/
structure Api where
  arxiv_entries : String → Nat → List AtomEntry
  crossref_search : String → Nat → List CrossrefItem
  openalex_search : String → Nat → List OpenAlexWork
  crossref_lookup_doi : String → Option CrossrefItem
  unpaywall_check : String → Option UnpaywallResp
  openalex_lookup_doi : String → Option OpenAlexWork

/-- An Api whose every call returns nothing. -/
def emptyApi : Api :=
  { arxiv_entries := fun _ _ => []
    crossref_search := fun _ _ => []
    openalex_search := fun _ _ => []
    crossref_lookup_doi := fun _ => none
    unpaywall_check := fun _ => none
    openalex_lookup_doi := fun _ => none }

/-- apis.py lines 193-248: `arxiv_search` — the parsed entries mapped through
the per-entry conversion. -/
def arxiv_search (api : Api) (query : String) (max_results : Nat) : List PaperMetadata :=
  (api.arxiv_entries query max_results).map atom_to_metadata

/-- An outbound enrichment call, recorded for the call-trace theorems. -/
inductive ApiCall where
  | unpaywall_check (doi : String)
  | openalex_lookup_doi (doi : String)
  deriving DecidableEq, Repr

/-- framework.py lines 222-229: the OpenAlex fallback tail of `_enrich_oa`. -/
def enrich_oa_fallback (api : Api) (meta : PaperMetadata) (d : String) : PaperMetadata :=
  match api.openalex_lookup_doi d with
  | some oalex =>
    if oalex.open_access.is_oa then
      { meta with oa_status := some OAColor.green, oa_url := oalex.open_access.oa_url }
    else meta
  | none => meta

/-- framework.py lines 209-229: `AcademicPaperFramework._enrich_oa`, paired
with the trace of enrichment API calls it issues. -/
def enrich_oa (cfg : Config) (api : Api) (meta : PaperMetadata) :
    PaperMetadata × List ApiCall :=
  match truthy meta.doi with
  | none => (meta, [])
  | some d =>
    if cfg.contact_email ≠ "" then
      match api.unpaywall_check d with
      | some data =>
        let oa := unpaywall_oa_info data
        ({ meta with oa_status := some oa.status, oa_url := oa.url, license := oa.license },
         [ApiCall.unpaywall_check d])
      | none =>
        (enrich_oa_fallback api meta d,
         [ApiCall.unpaywall_check d, ApiCall.openalex_lookup_doi d])
    else
      (enrich_oa_fallback api meta d, [ApiCall.openalex_lookup_doi d])

/-! ### searchAdHoc (framework.py lines 63-114)

The three provider loops become three phase functions over an accumulator of
(results so far, seen dedup keys).  The Crossref loop dereferences the value
of `crossref_to_metadata`, which is `None` for component DOIs; that
AttributeError is modelled as `Except.error`. -/

/-- The accumulator of `search_ad_hoc`: the result list and the
`seen_keys` set (a list used only through membership). -/
structure SearchSt where
  results : List ProcessingResult := []
  seen_keys : List String := []
  deriving DecidableEq, Repr

/-- The message of the AttributeError raised when the Crossref adapter
returns `None` and the caller dereferences `.doi` on it.  (Python renders
it with quotes around NoneType and doi.) -/
def noneTypeDoiMessage : String :=
  "AttributeError: NoneType object has no attribute doi"

/-- framework.py lines 76-80: the result wrapped around one arXiv item. -/
def arxiv_result (meta : PaperMetadata) : ProcessingResult :=
  { url := match truthy meta.arxiv_id with
      | some aid => "https://arxiv.org/abs/" ++ aid
      | none => ""
    state := .completed
    metadata := some meta }

/-- framework.py lines 91-96 and 107-112: the result wrapped around one
(possibly enriched) Crossref or OpenAlex record. -/
def doi_url_result (meta1 : PaperMetadata) : ProcessingResult :=
  { url := match truthy meta1.doi with
      | some d1 => "https://doi.org/" ++ d1
      | none => ""
    state := if pyBool meta1.oa_url then ProcessingState.completed
             else ProcessingState.metadata_extracted
    metadata := some meta1 }

/-- framework.py lines 71-80: the arXiv loop of `search_ad_hoc`. -/
def arxiv_phase : List PaperMetadata → SearchSt → SearchSt
  | [], st => st
  | meta :: rest, st =>
    let key := pyOrStr meta.arxiv_id meta.title
    if st.seen_keys.contains key then arxiv_phase rest st
    else
      arxiv_phase rest
        { results := st.results ++ [arxiv_result meta], seen_keys := key :: st.seen_keys }

/-- framework.py lines 83-96: the Crossref loop of `search_ad_hoc`. -/
def crossref_phase (cfg : Config) (api : Api) :
    List CrossrefItem → SearchSt → Except String SearchSt
  | [], st => .ok st
  | item :: rest, st =>
    match crossref_to_metadata item with
    | none => .error noneTypeDoiMessage
    | some meta =>
      match truthy meta.doi with
      | some d =>
        if st.seen_keys.contains d then crossref_phase cfg api rest st
        else
          crossref_phase cfg api rest
            { results := st.results ++ [doi_url_result ((enrich_oa cfg api meta).1)]
              seen_keys := d :: st.seen_keys }
      | none =>
        crossref_phase cfg api rest
          { results := st.results ++ [doi_url_result ((enrich_oa cfg api meta).1)]
            seen_keys := st.seen_keys }

/-- framework.py lines 99-112: the OpenAlex loop of `search_ad_hoc`. -/
def openalex_phase (cfg : Config) (api : Api) :
    List OpenAlexWork → SearchSt → SearchSt
  | [], st => st
  | item :: rest, st =>
    let meta := openalex_to_metadata item
    let key := pyOrStr meta.doi meta.title
    if st.seen_keys.contains key then openalex_phase cfg api rest st
    else
      openalex_phase cfg api rest
        { results := st.results ++
            [doi_url_result (if pyBool meta.doi && !pyBool meta.oa_url
              then (enrich_oa cfg api meta).1 else meta)]
          seen_keys := key :: st.seen_keys }

/-- framework.py lines 63-114: `AcademicPaperFramework.search_ad_hoc`.
Raised exceptions (the component-DOI AttributeError) become `Except.error`. -/
def search_ad_hoc (cfg : Config) (api : Api) (query : String) (max_results : Nat) :
    Except String (List ProcessingResult) :=
  let per_source := max (max_results / 3) 5
  let st1 := arxiv_phase (arxiv_search api query per_source) {}
  match crossref_phase cfg api (api.crossref_search query per_source) st1 with
  | .error e => .error e
  | .ok st2 =>
    let st3 := openalex_phase cfg api (api.openalex_search query per_source) st2
    .ok (st3.results.take max_results)

/-! ### Paper-list parsing and entry processing (framework.py lines 135-205) -/

/-- framework.py line 150: `list(dict.fromkeys(entries))` — deduplicate
preserving first-seen order. -/
def dedupeKeepFirst (l : List String) : List String :=
  go l []
where
  go : List String → List String → List String
    | [], _ => []
    | x :: rest, seen =>
      if seen.contains x then go rest seen else x :: go rest (x :: seen)

/-- framework.py lines 141-149: the raw entry list before deduplication —
extracted DOIs (punctuation-trimmed), then extracted URLs
(punctuation-trimmed) that are not doi.org resolver links. -/
def parse_entries_raw (text : String) : List String :=
  (findallDois text).map rstripPunct ++
    ((findallUrls text).map rstripPunct).filter (fun u => !strContains u "doi.org")

/-- framework.py lines 135-150: `AcademicPaperFramework._parse_paper_list`,
applied to the text of an existing file. -/
def parse_paper_list_text (text : String) : List String :=
  dedupeKeepFirst (parse_entries_raw text)

/-- framework.py lines 166-180: `AcademicPaperFramework._process_doi`.
`start` and `now` are the wall-clock readings taken by `time.time()` at entry
and at the return site.  The AttributeError raised inside `_enrich_oa` when
the Crossref adapter returned `None` becomes `Except.error`. -/
def process_doi (cfg : Config) (api : Api) (doi : String) (start now : ℚ) :
    Except String ProcessingResult :=
  match api.crossref_lookup_doi doi with
  | none =>
    .ok { url := "https://doi.org/" ++ doi
          state := .failed
          error_message := some "DOI not found in Crossref"
          processing_time := now - start }
  | some item =>
    match crossref_to_metadata item with
    | none => .error noneTypeDoiMessage
    | some meta =>
      let meta1 := (enrich_oa cfg api meta).1
      let state := if pyBool meta1.oa_url then ProcessingState.completed
                   else ProcessingState.metadata_extracted
      .ok { url := "https://doi.org/" ++ doi
            state := state
            metadata := some meta1
            processing_time := now - start }

/-- framework.py lines 182-205: `AcademicPaperFramework._process_url`. -/
def process_url (cfg : Config) (api : Api) (url : String) (start now : ℚ) :
    Except String ProcessingResult :=
  match arxivAbsMatch url.data with
  | some arxiv_id =>
    let pdf_url := pyReplace url "/abs/" "/pdf/"
    .ok { url := url
          state := .completed
          metadata := some { title := "arXiv:" ++ arxiv_id
                             arxiv_id := some arxiv_id
                             oa_status := some OAColor.green
                             oa_url := some pdf_url }
          processing_time := now - start }
  | none =>
    match (findallDois url).head? with
    | some m => process_doi cfg api (rstripPunct m) start now
    | none =>
      .ok { url := url
            state := .metadata_extracted
            metadata := some { title := url }
            processing_time := now - start }

/-- The body of the `try` block of `_process_entry` (framework.py
lines 154-158): the URL/DOI dispatch, with internal exceptions as errors. -/
def process_entry_body (cfg : Config) (api : Api) (entry : String) (start now : ℚ) :
    Except String ProcessingResult :=
  if pyStartsWith entry "http" then process_url cfg api entry start now
  else process_doi cfg api entry start now

/-- framework.py lines 152-164: `AcademicPaperFramework._process_entry` —
total: every internal exception is caught into a failed result carrying the
exception text and the elapsed time. -/
def process_entry (cfg : Config) (api : Api) (entry : String) (start now : ℚ) :
    ProcessingResult :=
  match process_entry_body cfg api entry start now with
  | .ok r => r
  | .error e =>
    { url := entry
      state := .failed
      error_message := some e
      processing_time := now - start }

/-! ### PDF download (framework.py lines 233-261)

The file system is the list of file names present in the output directory;
the HTTP fetch is an outcome function (response or raised exception). -/

/-- The outcome of `session.get` on an OA URL. -/
inductive FetchOutcome where
  | resp (status_code : Nat) (content_type : String)
  | exn (message : String)
  deriving DecidableEq, Repr

/-- The state threaded through the download loop: files present in the
output directory, the running count, and the trace of URLs fetched. -/
structure DownloadSt where
  files : List String
  count : Nat
  fetched : List String
  deriving DecidableEq, Repr

/-- framework.py lines 242-243: the safe file name derived from a title —
`re.sub(r"[^\w\s-]", "", title or "paper")[:80].strip()` plus `.pdf`. -/
def download_filename (title : String) : String :=
  let base := if title = "" then "paper" else title
  pyStrip (String.mk ((base.data.filter
    (fun c => isPyWord c || isPySpace c || c = '-')).take 80)) ++ ".pdf"

/-- framework.py lines 238-260: the body of the download loop for one result. -/
def download_step (fetch : String → FetchOutcome) (st : DownloadSt)
    (r : ProcessingResult) : DownloadSt :=
  match r.metadata with
  | none => st
  | some m =>
    match truthy m.oa_url with
    | none => st
    | some url =>
      let filename := download_filename m.title
      if st.files.contains filename then { st with count := st.count + 1 }
      else
        match fetch url with
        | .exn _ => { st with fetched := st.fetched ++ [url] }
        | .resp status content_type =>
          if status = 200 &&
             (strContains content_type "pdf" || pyEndsWith url ".pdf" ||
              strContains url "arxiv.org/pdf")
          then { files := st.files ++ [filename]
                 count := st.count + 1
                 fetched := st.fetched ++ [url] }
          else { st with fetched := st.fetched ++ [url] }

/-- The download loop over a result list. -/
def download_go (fetch : String → FetchOutcome) :
    List ProcessingResult → DownloadSt → DownloadSt
  | [], st => st
  | r :: rest, st => download_go fetch rest (download_step fetch st r)

/-- framework.py lines 233-261: `AcademicPaperFramework.download_pdfs`,
started on the given directory contents; the source returns `.count`. -/
def download_pdfs (fetch : String → FetchOutcome) (existing : List String)
    (results : List ProcessingResult) : DownloadSt :=
  download_go fetch results { files := existing, count := 0, fetched := [] }

/-! ### Report generation (framework.py lines 277-310) -/

/-- Count of results in a given state. -/
def countState (results : List ProcessingResult) (s : ProcessingState) : Nat :=
  (results.filter (fun r => r.state == s)).length

/-- Ordered-dictionary tally increment: bump an existing key in place or
append a new key with count 1. -/
def bumpCount (l : List (String × Nat)) (k : String) : List (String × Nat) :=
  match l with
  | [] => [(k, 1)]
  | (k0, n) :: rest => if k0 = k then (k0, n + 1) :: rest else (k0, n) :: bumpCount rest k

/-- framework.py lines 283-287: OA-status tally (an enum member is always
truthy, so presence of the status suffices). -/
def oaCounts (results : List ProcessingResult) : List (String × Nat) :=
  results.foldl
    (fun acc r =>
      match r.metadata with
      | some m =>
        match m.oa_status with
        | some c => bumpCount acc c.value
        | none => acc
      | none => acc) []

/-- framework.py lines 288-291: journal tally (an empty journal string is
falsy and skipped). -/
def journalCounts (results : List ProcessingResult) : List (String × Nat) :=
  results.foldl
    (fun acc r =>
      match r.metadata with
      | some m =>
        match m.journal with
        | some j => if j ≠ "" then bumpCount acc j else acc
        | none => acc
      | none => acc) []

/-- Stable insertion: place `x` after every element strictly preceding it. -/
def stableInsert (lt : α → α → Bool) (x : α) : List α → List α
  | [] => [x]
  | y :: ys => if lt y x then y :: stableInsert lt x ys else x :: y :: ys

/-- Stable sort (models Python sorted, which is stable). -/
def stableSort (lt : α → α → Bool) : List α → List α
  | [] => []
  | x :: xs => stableInsert lt x (stableSort lt xs)

/-- Python float division: raises ZeroDivisionError on a zero divisor. -/
def pyDiv (a b : ℚ) : Except String ℚ :=
  if b = 0 then .error "ZeroDivisionError: float division by zero" else .ok (a / b)

/-- `"%.0f"`-style rendering: round half to even, as Python format does
(binary-float representation error is not modelled). -/
def roundHalfEven (q : ℚ) : Int :=
  let f := ⌊q⌋
  let frac := q - f
  if frac < 1 / 2 then f
  else if 1 / 2 < frac then f + 1
  else if f % 2 = 0 then f else f + 1

/-- framework.py lines 293-310: the report text, given the already-computed
success ratio `completed / total`. -/
def report_text (results : List ProcessingResult) (rate : ℚ) : String :=
  let total := results.length
  let completed := countState results .completed
  let failed := countState results .failed
  let oa := stableSort (fun a b => a.1 < b.1) (oaCounts results)
  let journals := (stableSort (fun a b => b.2 < a.2) (journalCounts results)).take 10
  let lines : List String :=
    ["Academic Paper Search Report",
     String.mk (List.replicate 40 '='),
     "Total processed: " ++ toString total,
     "Completed:       " ++ toString completed,
     "Failed:          " ++ toString failed,
     "Success rate:    " ++ toString (roundHalfEven (rate * 100)) ++ "%",
     "",
     "Open Access Breakdown:"]
    ++ oa.map (fun p => "  " ++ p.1 ++ ": " ++ toString p.2)
    ++ (if journalCounts results ≠ [] then
          ["", "Top Journals:"] ++ journals.map (fun p => "  " ++ p.1 ++ ": " ++ toString p.2)
        else [])
  String.intercalate "\n" lines

/-- framework.py lines 277-310: `AcademicPaperFramework.generate_report`.
The division `completed / total` is performed through `pyDiv`, so an
(impossible) zero divisor would surface as a ZeroDivisionError. -/
def generate_report (results : List ProcessingResult) : Except String String :=
  let total := results.length
  if total = 0 then .ok "No results to report."
  else
    match pyDiv ((countState results .completed : Int) : ℚ) ((total : Int) : ℚ) with
    | .error e => .error e
    | .ok rate => .ok (report_text results rate)

/-! ### Helper lemmas -/

theorem truthy_eq_some {o : Option String} {d : String} :
    truthy o = some d ↔ o = some d ∧ d ≠ "" := by
  constructor
  · intro h
    cases o with
    | none => exact absurd h (by simp [truthy])
    | some s =>
      by_cases hs : s = ""
      · simp only [truthy, if_pos hs] at h
        exact absurd h (by simp)
      · simp only [truthy, if_neg hs] at h
        obtain rfl : s = d := Option.some.inj h
        exact ⟨rfl, hs⟩
  · rintro ⟨rfl, hd⟩
    simp only [truthy, if_neg hd]

theorem truthy_eq_none {o : Option String} :
    truthy o = none ↔ o = none ∨ o = some "" := by
  cases o with
  | none => simp [truthy]
  | some s => by_cases h : s = "" <;> simp [truthy, h]

theorem enrich_oa_fallback_doi (api : Api) (meta : PaperMetadata) (d : String) :
    (enrich_oa_fallback api meta d).doi = meta.doi := by
  unfold enrich_oa_fallback
  cases api.openalex_lookup_doi d with
  | none => rfl
  | some o =>
    by_cases h : o.open_access.is_oa = true <;> simp [h]

/-- The enrichment chain never changes the DOI of a record. -/
theorem enrich_oa_doi (cfg : Config) (api : Api) (meta : PaperMetadata) :
    (enrich_oa cfg api meta).1.doi = meta.doi := by
  unfold enrich_oa
  cases truthy meta.doi with
  | none => rfl
  | some d =>
    by_cases he : cfg.contact_email = "" <;> simp [he]
    · exact enrich_oa_fallback_doi api meta d
    · cases api.unpaywall_check d with
      | none => simpa using enrich_oa_fallback_doi api meta d
      | some data => rfl

/-! ### C2 — OA fallback chain without a contact email -/

/-- C2: with no contact email configured, `_enrich_oa` on a record with a
(truthy) DOI issues exactly the OpenAlex fallback lookup — in particular it
never calls Unpaywall — and a record with no DOI is returned unchanged with
no API call at all. -/
theorem claim_C2_enrich_oa_fallback_only (cfg : Config) (api : Api)
    (meta : PaperMetadata) (hemail : cfg.contact_email = "") :
    (truthy meta.doi = none → enrich_oa cfg api meta = (meta, [])) ∧
    (∀ d, truthy meta.doi = some d →
      (enrich_oa cfg api meta).2 = [ApiCall.openalex_lookup_doi d] ∧
      ∀ e, ApiCall.unpaywall_check e ∉ (enrich_oa cfg api meta).2) := by
  constructor
  · intro h; unfold enrich_oa; rw [h]
  · intro d hd
    unfold enrich_oa
    rw [hd]
    simp [hemail]

def c2WitnessApi : Api := emptyApi

def c2WitnessMeta : PaperMetadata := { title := "t", doi := some "10.1/x" }

theorem claim_C2_witness :
    (enrich_oa {} c2WitnessApi c2WitnessMeta).2 = [ApiCall.openalex_lookup_doi "10.1/x"] :=
  ((claim_C2_enrich_oa_fallback_only {} c2WitnessApi c2WitnessMeta rfl).2
    "10.1/x" rfl).1

/-! ### C4 — report generation never divides by zero -/

/-- C4: `generate_report` never raises a ZeroDivisionError: the empty result
set yields the fixed no-results message, every result set yields an ok
report, and for a non-empty set the success ratio passed to the renderer is
the completed count divided by the total count. -/
theorem claim_C4_generate_report_division (R : List ProcessingResult) :
    generate_report ([] : List ProcessingResult) = .ok "No results to report." ∧
    (∃ s, generate_report R = Except.ok s) ∧
    (R ≠ [] →
      generate_report R = .ok (report_text R
        (((countState R .completed : Int) : ℚ) / ((R.length : Int) : ℚ)))) := by
  refine ⟨rfl, ?_, ?_⟩
  · by_cases h : R = []
    · exact ⟨"No results to report.", by rw [h]; rfl⟩
    · refine ⟨report_text R (((countState R .completed : Int) : ℚ) / ((R.length : Int) : ℚ)), ?_⟩
      unfold generate_report
      have hlen : R.length ≠ 0 := fun hc => h (List.length_eq_zero.mp hc)
      rw [if_neg hlen]
      unfold pyDiv
      rw [if_neg (by exact_mod_cast hlen)]
  · intro h
    unfold generate_report
    have hlen : R.length ≠ 0 := fun hc => h (List.length_eq_zero.mp hc)
    rw [if_neg hlen]
    unfold pyDiv
    rw [if_neg (by exact_mod_cast hlen)]

def c4WitnessResult : ProcessingResult := { url := "u", state := .completed }

theorem claim_C4_witness :
    generate_report [c4WitnessResult] = .ok (report_text [c4WitnessResult]
      (((countState [c4WitnessResult] .completed : Int) : ℚ) /
        (((List.length [c4WitnessResult] : Nat) : Int) : ℚ))) :=
  (claim_C4_generate_report_division [c4WitnessResult]).2.2 (by decide)

/-! ### C5 — component DOIs: adapter yields absent, but searchAdHoc raises -/

def c5FigItem : CrossrefItem :=
  { title := ["Figure 3"], DOI := some "10.7717/peerj.4375/fig-3" }

def c5Api : Api :=
  { emptyApi with crossref_search := fun _ _ => [c5FigItem] }

/-- C5 (code bug): a Crossref item whose DOI suffix matches the
figure/table/supplement pattern does normalize to absent (`None`), as the
claim states — but `search_ad_hoc` then dereferences that `None`
(`meta.doi`), so instead of excluding the item from its results it raises an
AttributeError to the caller. -/
theorem claim_C5_fig_doi_crashes_search :
    crossref_to_metadata c5FigItem = none ∧
    search_ad_hoc {} c5Api "q" 10 = .error noneTypeDoiMessage := by
  exact ⟨rfl, rfl⟩

/-! ### C3 — processEntry is total and timestamps every result -/

theorem process_doi_ok_time (cfg : Config) (api : Api) (doi : String)
    (start now : ℚ) (r : ProcessingResult) :
    process_doi cfg api doi start now = .ok r → r.processing_time = now - start := by
  intro h
  unfold process_doi at h
  split at h
  · cases h; rfl
  · split at h
    · cases h
    · cases h; rfl

theorem process_url_ok_time (cfg : Config) (api : Api) (url : String)
    (start now : ℚ) (r : ProcessingResult) :
    process_url cfg api url start now = .ok r → r.processing_time = now - start := by
  intro h
  unfold process_url at h
  split at h
  · cases h; rfl
  · split at h
    · exact process_doi_ok_time cfg api _ start now r h
    · cases h; rfl

theorem process_entry_body_ok_time (cfg : Config) (api : Api) (entry : String)
    (start now : ℚ) (r : ProcessingResult) :
    process_entry_body cfg api entry start now = .ok r →
    r.processing_time = now - start := by
  intro h
  unfold process_entry_body at h
  split at h
  · exact process_url_ok_time cfg api entry start now r h
  · exact process_doi_ok_time cfg api entry start now r h

/-- C3: for every input identifier, `_process_entry` returns a
ProcessingResult (it is a total function of the dispatch outcome): a
successful dispatch is returned as is, an internal exception becomes a
`failed` result whose error message is the exception text, and in all cases
the result carries the elapsed processing time `now - start`. -/
theorem claim_C3_process_entry_total (cfg : Config) (api : Api) (entry : String)
    (start now : ℚ) :
    (process_entry cfg api entry start now).processing_time = now - start ∧
    (∀ r, process_entry_body cfg api entry start now = .ok r →
      process_entry cfg api entry start now = r) ∧
    (∀ msg, process_entry_body cfg api entry start now = .error msg →
      (process_entry cfg api entry start now).state = .failed ∧
      (process_entry cfg api entry start now).error_message = some msg) := by
  refine ⟨?_, ?_, ?_⟩
  · unfold process_entry
    split
    · next r h => exact process_entry_body_ok_time cfg api entry start now r h
    · rfl
  · intro r h; unfold process_entry; rw [h]
  · intro msg h; unfold process_entry; rw [h]; exact ⟨rfl, rfl⟩

def c3Api : Api :=
  { emptyApi with crossref_lookup_doi := fun _ => some c5FigItem }

theorem claim_C3_witness :
    (process_entry {} c3Api "10.5555/x" 0 1).state = .failed ∧
    (process_entry {} c3Api "10.5555/x" 0 1).error_message = some noneTypeDoiMessage :=
  (claim_C3_process_entry_total {} c3Api "10.5555/x" 0 1).2.2 noneTypeDoiMessage (by rfl)

/-! ### C8 — OA status invariant -/

theorem unpaywall_closed_no_url (data : UnpaywallResp) :
    (unpaywall_oa_info data).status = .closed → (unpaywall_oa_info data).url = none := by
  unfold unpaywall_oa_info
  cases h : data.is_oa with
  | false => intro _; rfl
  | true =>
    simp only [h, Bool.not_true, Bool.false_eq_true, if_false]
    intro hc
    exfalso
    revert hc
    split <;> intro hc <;> cases hc

/-- Enrichment preserves the closed-implies-no-URL invariant. -/
theorem enrich_oa_closed_no_url (cfg : Config) (api : Api) (meta : PaperMetadata)
    (hinv : meta.oa_status = some .closed → meta.oa_url = none) :
    (enrich_oa cfg api meta).1.oa_status = some .closed →
    (enrich_oa cfg api meta).1.oa_url = none := by
  unfold enrich_oa
  cases truthy meta.doi with
  | none => exact hinv
  | some d =>
    have hfb : (enrich_oa_fallback api meta d).oa_status = some .closed →
        (enrich_oa_fallback api meta d).oa_url = none := by
      unfold enrich_oa_fallback
      cases api.openalex_lookup_doi d with
      | none => exact hinv
      | some o =>
        cases ho : o.open_access.is_oa with
        | false => simpa [ho] using hinv
        | true =>
          simp only [ho, if_true]
          intro hc
          exact absurd (Option.some.inj hc) (by intro hc2; cases hc2)
    by_cases he : cfg.contact_email = ""
    · simp only [he, ne_eq, not_true_eq_false, if_false]
      exact hfb
    · simp only [ne_eq, he, not_false_eq_true, if_true]
      cases api.unpaywall_check d with
      | none => exact hfb
      | some data =>
        intro hc
        have hcs : (unpaywall_oa_info data).status = OAColor.closed :=
          Option.some.inj hc
        exact unpaywall_closed_no_url data hcs

/-- C8: OA statuses are confined to the fixed enumeration, and every
metadata record produced by the adapters or the enrichment chain satisfies
"closed implies no OA location": the Unpaywall extraction, the arXiv,
Crossref and OpenAlex adapters, and `_enrich_oa` (which preserves the
invariant). -/
theorem claim_C8_oa_invariant (data : UnpaywallResp) (entry : AtomEntry)
    (item : CrossrefItem) (w : OpenAlexWork) (cfg : Config) (api : Api)
    (meta : PaperMetadata) :
    (∀ c : OAColor, c ∈ [OAColor.gold, .green, .hybrid, .bronze, .closed, .unknown]) ∧
    ((unpaywall_oa_info data).status = .closed → (unpaywall_oa_info data).url = none) ∧
    ((atom_to_metadata entry).oa_status = some .closed →
      (atom_to_metadata entry).oa_url = none) ∧
    (∀ m, crossref_to_metadata item = some m → m.oa_status = none) ∧
    ((openalex_to_metadata w).oa_status = some .closed →
      (openalex_to_metadata w).oa_url = none) ∧
    ((meta.oa_status = some .closed → meta.oa_url = none) →
      (enrich_oa cfg api meta).1.oa_status = some .closed →
      (enrich_oa cfg api meta).1.oa_url = none) := by
  refine ⟨?_, unpaywall_closed_no_url data, ?_, ?_, ?_,
    fun hinv => enrich_oa_closed_no_url cfg api meta hinv⟩
  · intro c; cases c <;> simp
  · intro hc
    exact absurd (Option.some.inj hc) (by intro hc2; cases hc2)
  · intro m hm
    by_cases hfig : hasComponentSuffix ((item.DOI.getD "")).data = true
    · simp [crossref_to_metadata, hfig] at hm
    · simp only [crossref_to_metadata, hfig, Bool.false_eq_true, if_false,
        Option.some.injEq] at hm
      rw [← hm]
  · intro hc
    unfold openalex_to_metadata at hc
    cases hw : w.open_access.is_oa <;> simp [hw] at hc

def c8WitnessData : UnpaywallResp := { is_oa := false }

theorem claim_C8_witness :
    (unpaywall_oa_info c8WitnessData).url = none :=
  (claim_C8_oa_invariant c8WitnessData {} {} {} {} emptyApi { title := "t" }).2.1 rfl

/-! ### C9 and C10 — download validation -/

theorem download_step_files_count (fetch : String → FetchOutcome)
    (files : List String) (count : Nat) (f1 f2 : List String)
    (r : ProcessingResult) :
    (download_step fetch ⟨files, count, f1⟩ r).files
      = (download_step fetch ⟨files, count, f2⟩ r).files ∧
    (download_step fetch ⟨files, count, f1⟩ r).count
      = (download_step fetch ⟨files, count, f2⟩ r).count := by
  cases hr : r.metadata with
  | none => simp [download_step, hr]
  | some m =>
    cases hu : truthy m.oa_url with
    | none => simp [download_step, hr, hu]
    | some url =>
      by_cases hc : download_filename m.title ∈ files
      · simp [download_step, hr, hu, hc]
      · cases hf : fetch url with
        | exn msg => simp [download_step, hr, hu, hc, hf]
        | resp status ct =>
          by_cases hok : (status = 200 &&
              (strContains ct "pdf" || pyEndsWith url ".pdf" ||
                strContains url "arxiv.org/pdf")) = true
          · simp [download_step, hr, hu, hc, hf, hok]
          · simp [download_step, hr, hu, hc, hf, hok]

theorem download_go_files_count (fetch : String → FetchOutcome)
    (rest : List ProcessingResult) :
    ∀ (files : List String) (count : Nat) (f1 f2 : List String),
    (download_go fetch rest ⟨files, count, f1⟩).files
      = (download_go fetch rest ⟨files, count, f2⟩).files ∧
    (download_go fetch rest ⟨files, count, f1⟩).count
      = (download_go fetch rest ⟨files, count, f2⟩).count := by
  induction rest with
  | nil => intro files count f1 f2; exact ⟨rfl, rfl⟩
  | cons r rest2 ih =>
    intro files count f1 f2
    have e1 : download_go fetch (r :: rest2) ⟨files, count, f1⟩
        = download_go fetch rest2 (download_step fetch ⟨files, count, f1⟩ r) := rfl
    have e2 : download_go fetch (r :: rest2) ⟨files, count, f2⟩
        = download_go fetch rest2 (download_step fetch ⟨files, count, f2⟩ r) := rfl
    obtain ⟨hf, hc⟩ := download_step_files_count fetch files count f1 f2 r
    obtain ⟨fs1, c1, t1, hs1⟩ :
        ∃ a b c, download_step fetch ⟨files, count, f1⟩ r = ⟨a, b, c⟩ := ⟨_, _, _, rfl⟩
    obtain ⟨fs2, c2, t2, hs2⟩ :
        ∃ a b c, download_step fetch ⟨files, count, f2⟩ r = ⟨a, b, c⟩ := ⟨_, _, _, rfl⟩
    rw [hs1, hs2] at hf hc
    change fs1 = fs2 at hf
    change c1 = c2 at hc
    subst hf; subst hc
    rw [e1, e2, hs1, hs2]
    exact ih fs1 c1 t1 t2

/-- C9: a fetch whose HTTP status is not 200 writes no file and does not
increment the count, and processing of the remaining results continues as
if the failed result were absent. -/
theorem claim_C9_failed_fetch_ignored (fetch : String → FetchOutcome)
    (st : DownloadSt) (r : ProcessingResult) (rest : List ProcessingResult)
    (m : PaperMetadata) (url : String) (status : Nat) (ct : String)
    (hm : r.metadata = some m) (hurl : truthy m.oa_url = some url)
    (hnew : st.files.contains (download_filename m.title) = false)
    (hf : fetch url = .resp status ct) (hs : status ≠ 200) :
    (download_step fetch st r).files = st.files ∧
    (download_step fetch st r).count = st.count ∧
    (download_go fetch (r :: rest) st).files = (download_go fetch rest st).files ∧
    (download_go fetch (r :: rest) st).count = (download_go fetch rest st).count := by
  obtain ⟨fs, c, t⟩ := st
  have hmem : download_filename m.title ∉ fs := by simpa using hnew
  have hstep : download_step fetch ⟨fs, c, t⟩ r = ⟨fs, c, t ++ [url]⟩ := by
    simp [download_step, hm, hurl, hf, hmem, hs]
  have e1 : download_go fetch (r :: rest) (⟨fs, c, t⟩ : DownloadSt)
      = download_go fetch rest (download_step fetch ⟨fs, c, t⟩ r) := rfl
  refine ⟨by rw [hstep], by rw [hstep], ?_, ?_⟩
  · rw [e1, hstep]
    exact (download_go_files_count fetch rest fs c (t ++ [url]) t).1
  · rw [e1, hstep]
    exact (download_go_files_count fetch rest fs c (t ++ [url]) t).2

def c9Fetch : String → FetchOutcome := fun _ => .resp 404 "text/html"

def c9Result : ProcessingResult :=
  { url := "https://doi.org/10.1/x"
    state := .completed
    metadata := some { title := "A Paper", oa_url := some "https://x.y/a.pdf" } }

theorem claim_C9_witness :
    (download_step c9Fetch ⟨[], 0, []⟩ c9Result).files = [] ∧
    (download_step c9Fetch ⟨[], 0, []⟩ c9Result).count = 0 :=
  ⟨(claim_C9_failed_fetch_ignored c9Fetch ⟨[], 0, []⟩ c9Result []
      { title := "A Paper", oa_url := some "https://x.y/a.pdf" }
      "https://x.y/a.pdf" 404 "text/html" rfl rfl rfl rfl (by decide)).1,
   (claim_C9_failed_fetch_ignored c9Fetch ⟨[], 0, []⟩ c9Result []
      { title := "A Paper", oa_url := some "https://x.y/a.pdf" }
      "https://x.y/a.pdf" 404 "text/html" rfl rfl rfl rfl (by decide)).2.1⟩

/-- C10: when the derived safe filename already exists, the loop performs no
fetch and writes no file, yet still counts the result as downloaded. -/
theorem claim_C10_existing_file_counted (fetch : String → FetchOutcome)
    (st : DownloadSt) (r : ProcessingResult) (m : PaperMetadata) (url : String)
    (hm : r.metadata = some m) (hurl : truthy m.oa_url = some url)
    (hex : st.files.contains (download_filename m.title) = true) :
    (download_step fetch st r).fetched = st.fetched ∧
    (download_step fetch st r).files = st.files ∧
    (download_step fetch st r).count = st.count + 1 := by
  obtain ⟨fs, c, t⟩ := st
  have hmem : download_filename m.title ∈ fs := by simpa using hex
  have hstep : download_step fetch ⟨fs, c, t⟩ r = ⟨fs, c + 1, t⟩ := by
    simp [download_step, hm, hurl, hmem]
  exact ⟨by rw [hstep], by rw [hstep], by rw [hstep]⟩

theorem claim_C10_witness :
    (download_step c9Fetch ⟨["A Paper.pdf"], 0, []⟩ c9Result).fetched = [] ∧
    (download_step c9Fetch ⟨["A Paper.pdf"], 0, []⟩ c9Result).files = ["A Paper.pdf"] ∧
    (download_step c9Fetch ⟨["A Paper.pdf"], 0, []⟩ c9Result).count = 0 + 1 :=
  claim_C10_existing_file_counted c9Fetch ⟨["A Paper.pdf"], 0, []⟩ c9Result
    { title := "A Paper", oa_url := some "https://x.y/a.pdf" }
    "https://x.y/a.pdf" rfl rfl (by decide)

/-! ### C6 — paper-list parsing -/

theorem dedupe_go_sublist (l : List String) :
    ∀ seen, (dedupeKeepFirst.go l seen).Sublist l := by
  induction l with
  | nil => intro seen; exact List.Sublist.refl []
  | cons x rest ih =>
    intro seen
    show (if seen.contains x then dedupeKeepFirst.go rest seen
          else x :: dedupeKeepFirst.go rest (x :: seen)).Sublist (x :: rest)
    by_cases h : seen.contains x = true
    · rw [if_pos h]; exact (ih seen).cons x
    · rw [if_neg h]; exact (ih (x :: seen)).cons₂ x

theorem dedupe_go_not_mem_seen (l : List String) :
    ∀ seen x, x ∈ dedupeKeepFirst.go l seen → x ∉ seen := by
  induction l with
  | nil => intro seen x hx; cases hx
  | cons y rest ih =>
    intro seen x hx
    by_cases h : seen.contains y = true
    · have he : dedupeKeepFirst.go (y :: rest) seen = dedupeKeepFirst.go rest seen := by
        show (if seen.contains y then _ else _) = _
        rw [if_pos h]
      rw [he] at hx
      exact ih seen x hx
    · have he : dedupeKeepFirst.go (y :: rest) seen
          = y :: dedupeKeepFirst.go rest (y :: seen) := by
        show (if seen.contains y then _ else _) = _
        rw [if_neg h]
      rw [he] at hx
      rcases List.mem_cons.mp hx with rfl | hx2
      · intro hmem
        exact h (List.elem_iff.mpr hmem)
      · intro hmem
        exact ih (y :: seen) x hx2 (List.mem_cons_of_mem y hmem)

theorem dedupe_go_nodup (l : List String) :
    ∀ seen, (dedupeKeepFirst.go l seen).Nodup := by
  induction l with
  | nil => intro seen; exact List.nodup_nil
  | cons y rest ih =>
    intro seen
    by_cases h : seen.contains y = true
    · have he : dedupeKeepFirst.go (y :: rest) seen = dedupeKeepFirst.go rest seen := by
        show (if seen.contains y then _ else _) = _
        rw [if_pos h]
      rw [he]; exact ih seen
    · have he : dedupeKeepFirst.go (y :: rest) seen
          = y :: dedupeKeepFirst.go rest (y :: seen) := by
        show (if seen.contains y then _ else _) = _
        rw [if_neg h]
      rw [he]
      refine List.nodup_cons.mpr ⟨?_, ih (y :: seen)⟩
      intro hy
      exact dedupe_go_not_mem_seen rest (y :: seen) y hy (List.mem_cons_self y seen)

/-- The spec's DOI/URL extraction scenario text: a DOI (with trailing
punctuation), an arXiv URL (with trailing punctuation), a repeated DOI, and
a doi.org resolver link. -/
def c6Text : String :=
  "See 10.1016/j.oregeorev.2018.12.018, and https://arxiv.org/abs/1901.01234. Also 10.1016/j.oregeorev.2018.12.018 and https://doi.org/10.1016/j.oregeorev.2018.12.018"

/-- C6 counterexample: on the spec's own scenario text, `_parse_paper_list`
returns the DOI as the bare DOI string, not as a resolver URL — the
doi.org rendering of the DOI is not among the returned entries. -/
theorem claim_C6_counterexample :
    parse_paper_list_text c6Text =
      ["10.1016/j.oregeorev.2018.12.018", "https://arxiv.org/abs/1901.01234"] ∧
    "https://doi.org/10.1016/j.oregeorev.2018.12.018" ∉ parse_paper_list_text c6Text := by
  constructor
  · rfl
  · decide

/-- C6 (amended): `_parse_paper_list` returns both the DOI (verbatim, with
trailing punctuation trimmed — not rendered as a resolver URL) and the
non-doi.org URL, drops doi.org resolver links, and deduplicates repeated
occurrences while preserving first-seen order (the output is duplicate-free
and a sublist of the raw extraction order, for every input text). -/
theorem claim_C6_parse_paper_list :
    (∀ text : String, (parse_paper_list_text text).Nodup ∧
      (parse_paper_list_text text).Sublist (parse_entries_raw text)) ∧
    "10.1016/j.oregeorev.2018.12.018" ∈ parse_paper_list_text c6Text ∧
    "https://arxiv.org/abs/1901.01234" ∈ parse_paper_list_text c6Text ∧
    (parse_paper_list_text c6Text).length = 2 := by
  refine ⟨fun text => ⟨dedupe_go_nodup _ [], dedupe_go_sublist _ []⟩, ?_, ?_, ?_⟩
  · decide
  · decide
  · decide

/-! ### C7 — dedup keys are per provider branch -/

theorem arxiv_phase_cons (meta : PaperMetadata) (rest : List PaperMetadata)
    (st : SearchSt) :
    arxiv_phase (meta :: rest) st =
      if st.seen_keys.contains (pyOrStr meta.arxiv_id meta.title) then
        arxiv_phase rest st
      else arxiv_phase rest
        { results := st.results ++ [arxiv_result meta]
          seen_keys := pyOrStr meta.arxiv_id meta.title :: st.seen_keys } := rfl

theorem crossref_phase_cons (cfg : Config) (api : Api) (item : CrossrefItem)
    (rest : List CrossrefItem) (st : SearchSt) :
    crossref_phase cfg api (item :: rest) st =
      match crossref_to_metadata item with
      | none => .error noneTypeDoiMessage
      | some meta =>
        match truthy meta.doi with
        | some d =>
          if st.seen_keys.contains d then crossref_phase cfg api rest st
          else crossref_phase cfg api rest
            { results := st.results ++ [doi_url_result ((enrich_oa cfg api meta).1)]
              seen_keys := d :: st.seen_keys }
        | none =>
          crossref_phase cfg api rest
            { results := st.results ++ [doi_url_result ((enrich_oa cfg api meta).1)]
              seen_keys := st.seen_keys } := rfl

theorem openalex_phase_cons (cfg : Config) (api : Api) (item : OpenAlexWork)
    (rest : List OpenAlexWork) (st : SearchSt) :
    openalex_phase cfg api (item :: rest) st =
      if st.seen_keys.contains
          (pyOrStr (openalex_to_metadata item).doi (openalex_to_metadata item).title) then
        openalex_phase cfg api rest st
      else openalex_phase cfg api rest
        { results := st.results ++
            [doi_url_result
              (if pyBool (openalex_to_metadata item).doi &&
                  !pyBool (openalex_to_metadata item).oa_url
               then (enrich_oa cfg api (openalex_to_metadata item)).1
               else openalex_to_metadata item)]
          seen_keys :=
            pyOrStr (openalex_to_metadata item).doi (openalex_to_metadata item).title
              :: st.seen_keys } := rfl

theorem append_state_ne (st : SearchSt) (r : ProcessingResult) (ks : List String) :
    (⟨st.results ++ [r], ks⟩ : SearchSt) ≠ st := by
  intro h
  have hlen := congrArg List.length (congrArg SearchSt.results h)
  simp at hlen

def c7Api : Api :=
  { emptyApi with
    crossref_search := fun _ _ => [{ title := ["T"] }]
    openalex_search := fun _ _ => [{ title := some "T" }] }

/-- C7 counterexample: a Crossref item and an OpenAlex item that describe
the same work — no DOI, no arXiv identifier, identical title "T" — share
the claimed dedup key, yet `search_ad_hoc` keeps both records: the Crossref
branch never registers or checks a key for a record without a DOI. -/
theorem claim_C7_counterexample :
    (search_ad_hoc {} c7Api "q" 10).toOption.isSome = true ∧
    ((search_ad_hoc {} c7Api "q" 10).toOption.getD []).map
        (fun r => r.metadata.map (fun m => (m.title, m.doi, m.arxiv_id)))
      = [some ("T", none, none), some ("T", none, none)] := by
  exact ⟨rfl, rfl⟩

/-- C7 (amended): dedup keys are derived per provider branch, not by one
uniform rule.  The arXiv branch keys on the arXiv id when truthy, else the
title; the Crossref branch keys on the DOI only — a Crossref record whose
DOI is absent (or empty) is appended unconditionally and adds nothing to
the seen set; the OpenAlex branch keys on the DOI when truthy, else the
title.  Titles are compared verbatim. -/
theorem claim_C7_dedup_keys (cfg : Config) (api : Api) (metaA : PaperMetadata)
    (item : CrossrefItem) (w : OpenAlexWork) (st : SearchSt) :
    (arxiv_phase [metaA] st = st ↔
      st.seen_keys.contains (pyOrStr metaA.arxiv_id metaA.title) = true) ∧
    (∀ m d, crossref_to_metadata item = some m → truthy m.doi = some d →
      (crossref_phase cfg api [item] st = .ok st ↔
        st.seen_keys.contains d = true)) ∧
    (∀ m, crossref_to_metadata item = some m → truthy m.doi = none →
      crossref_phase cfg api [item] st =
        .ok ⟨st.results ++ [doi_url_result ((enrich_oa cfg api m).1)], st.seen_keys⟩) ∧
    (openalex_phase cfg api [w] st = st ↔
      st.seen_keys.contains
        (pyOrStr (openalex_to_metadata w).doi (openalex_to_metadata w).title) = true) := by
  refine ⟨⟨?_, ?_⟩, ?_, ?_, ⟨?_, ?_⟩⟩
  · intro h
    by_cases hk : st.seen_keys.contains (pyOrStr metaA.arxiv_id metaA.title) = true
    · exact hk
    · exfalso
      rw [arxiv_phase_cons, if_neg hk] at h
      exact append_state_ne st _ _ h
  · intro hk
    rw [arxiv_phase_cons, if_pos hk]
    rfl
  · intro m d hm hd
    constructor
    · intro h
      by_cases hk : st.seen_keys.contains d = true
      · exact hk
      · exfalso
        simp only [crossref_phase_cons, hm, hd, hk, Bool.false_eq_true, if_false] at h
        exact append_state_ne st _ _ (Except.ok.inj h)
    · intro hk
      have hmem : d ∈ st.seen_keys := List.elem_iff.mp hk
      simp [crossref_phase_cons, hm, hd, hmem]
      rfl
  · intro m hm hd
    simp [crossref_phase_cons, hm, hd]
    rfl
  · intro h
    by_cases hk : st.seen_keys.contains
        (pyOrStr (openalex_to_metadata w).doi (openalex_to_metadata w).title) = true
    · exact hk
    · exfalso
      rw [openalex_phase_cons, if_neg hk] at h
      exact append_state_ne st _ _ h
  · intro hk
    rw [openalex_phase_cons, if_pos hk]
    rfl

def c7WitnessMeta : PaperMetadata := { title := "A" }

theorem claim_C7_witness :
    arxiv_phase [c7WitnessMeta] ⟨[], ["A"]⟩ = (⟨[], ["A"]⟩ : SearchSt) :=
  (claim_C7_dedup_keys {} emptyApi c7WitnessMeta {} {} ⟨[], ["A"]⟩).1.mpr (by decide)

/-! ### C1 — cross-provider DOI dedup -/

/-- The DOI carried by a result's metadata, if any. -/
def result_doi (r : ProcessingResult) : Option String :=
  match r.metadata with
  | some m => m.doi
  | none => none

/-- Number of records in a result list whose metadata carries DOI `d`. -/
def doi_count (l : List ProcessingResult) (d : String) : Nat :=
  l.countP (fun r => result_doi r == some d)

theorem doi_count_append (l1 l2 : List ProcessingResult) (d : String) :
    doi_count (l1 ++ l2) d = doi_count l1 d + doi_count l2 d :=
  List.countP_append _ _ _

theorem doi_count_single_eq (r : ProcessingResult) (d : String)
    (h : result_doi r = some d) : doi_count [r] d = 1 := by
  simp [doi_count, List.countP_cons, h]

theorem doi_count_single_ne (r : ProcessingResult) (d : String)
    (h : result_doi r ≠ some d) : doi_count [r] d = 0 := by
  simp [doi_count, List.countP_cons, h]

theorem result_doi_doi_url (m1 : PaperMetadata) :
    result_doi (doi_url_result m1) = m1.doi := rfl

theorem result_doi_arxiv (m : PaperMetadata) :
    result_doi (arxiv_result m) = m.doi := rfl

theorem atom_to_metadata_doi (e : AtomEntry) : (atom_to_metadata e).doi = none := rfl

theorem contains_cons_of (l : List String) (x k : String)
    (h : l.contains k = true) : (x :: l).contains k = true :=
  List.elem_iff.mpr (List.mem_cons_of_mem x (List.elem_iff.mp h))

theorem contains_cons_self (l : List String) (x : String) :
    (x :: l).contains x = true :=
  List.elem_iff.mpr (List.mem_cons_self x l)

/-- The dedup invariant threaded through the three provider phases: at most
one record carries DOI `d`, and if one does, `d` is in the seen-key set. -/
def DedupInv (st : SearchSt) (d : String) : Prop :=
  doi_count st.results d ≤ 1 ∧
  (1 ≤ doi_count st.results d → st.seen_keys.contains d = true)

theorem arxiv_phase_spec (d : String) :
    ∀ (metas : List PaperMetadata) (st : SearchSt), (∀ m ∈ metas, m.doi = none) →
      doi_count (arxiv_phase metas st).results d = doi_count st.results d ∧
      ∀ k, st.seen_keys.contains k = true →
        (arxiv_phase metas st).seen_keys.contains k = true := by
  intro metas
  induction metas with
  | nil => intro st _; exact ⟨rfl, fun k hk => hk⟩
  | cons meta rest ih =>
    intro st hmetas
    have hdoi : meta.doi = none := hmetas meta (List.mem_cons_self meta rest)
    have hrest : ∀ m ∈ rest, m.doi = none :=
      fun m hm => hmetas m (List.mem_cons_of_mem meta hm)
    rw [arxiv_phase_cons]
    by_cases hk : st.seen_keys.contains (pyOrStr meta.arxiv_id meta.title) = true
    · rw [if_pos hk]; exact ih st hrest
    · rw [if_neg hk]
      obtain ⟨hcount, hmono⟩ := ih
        ⟨st.results ++ [arxiv_result meta],
          pyOrStr meta.arxiv_id meta.title :: st.seen_keys⟩ hrest
      constructor
      · rw [hcount]
        show doi_count (st.results ++ [arxiv_result meta]) d = _
        rw [doi_count_append, doi_count_single_ne _ _ (by
          rw [result_doi_arxiv, hdoi]; exact fun hc => Option.noConfusion hc),
          Nat.add_zero]
      · intro k hk2
        exact hmono k (contains_cons_of _ _ _ hk2)

theorem crossref_phase_spec (cfg : Config) (api : Api) (d : String) (hd : d ≠ "") :
    ∀ (items : List CrossrefItem) (st st2 : SearchSt),
      crossref_phase cfg api items st = .ok st2 → DedupInv st d →
      DedupInv st2 d ∧
      (∀ k, st.seen_keys.contains k = true → st2.seen_keys.contains k = true) ∧
      ∃ new, st2.results = st.results ++ new := by
  intro items
  induction items with
  | nil =>
    intro st st2 h hinv
    obtain rfl : st = st2 := Except.ok.inj h
    exact ⟨hinv, fun k hk => hk, [], by simp⟩
  | cons item rest ih =>
    intro st st2 h hinv
    rw [crossref_phase_cons] at h
    cases hm : crossref_to_metadata item with
    | none => simp only [hm] at h; cases h
    | some meta =>
      simp only [hm] at h
      cases hdoi : truthy meta.doi with
      | some d0 =>
        simp only [hdoi] at h
        by_cases hk : st.seen_keys.contains d0 = true
        · rw [if_pos hk] at h; exact ih st st2 h hinv
        · rw [if_neg hk] at h
          have hrdoi : result_doi (doi_url_result ((enrich_oa cfg api meta).1)) = some d0 := by
            rw [result_doi_doi_url, enrich_oa_doi]
            exact (truthy_eq_some.mp hdoi).1
          have hinv2 : DedupInv
              ⟨st.results ++ [doi_url_result ((enrich_oa cfg api meta).1)],
                d0 :: st.seen_keys⟩ d := by
            by_cases hdd : d0 = d
            · subst hdd
              have hc0 : doi_count st.results d0 = 0 := by
                by_contra hne
                exact hk (hinv.2 (Nat.one_le_iff_ne_zero.mpr hne))
              constructor
              · show doi_count (st.results ++ _) d0 ≤ 1
                rw [doi_count_append, hc0, doi_count_single_eq _ _ hrdoi]
              · intro _
                exact contains_cons_self st.seen_keys d0
            · have hc1 : doi_count
                  (st.results ++ [doi_url_result ((enrich_oa cfg api meta).1)]) d
                  = doi_count st.results d := by
                rw [doi_count_append, doi_count_single_ne _ _ (by
                  rw [hrdoi]
                  exact fun hc => hdd (Option.some.inj hc)), Nat.add_zero]
              constructor
              · show doi_count (st.results ++ _) d ≤ 1
                rw [hc1]; exact hinv.1
              · intro h1
                rw [show doi_count (st.results ++
                    [doi_url_result ((enrich_oa cfg api meta).1)]) d
                    = doi_count st.results d from hc1] at h1
                exact contains_cons_of _ _ _ (hinv.2 h1)
          obtain ⟨hinvf, hmono, new2, hres⟩ := ih _ st2 h hinv2
          refine ⟨hinvf, ?_, doi_url_result ((enrich_oa cfg api meta).1) :: new2, ?_⟩
          · intro k hk2
            exact hmono k (contains_cons_of _ _ _ hk2)
          · rw [hres]; simp
      | none =>
        simp only [hdoi] at h
        have hrdoi : result_doi (doi_url_result ((enrich_oa cfg api meta).1)) ≠ some d := by
          rw [result_doi_doi_url, enrich_oa_doi]
          rcases truthy_eq_none.mp hdoi with h0 | h0 <;> rw [h0]
          · exact fun hc => Option.noConfusion hc
          · exact fun hc => hd (Option.some.inj hc).symm
        have hc1 : doi_count
            (st.results ++ [doi_url_result ((enrich_oa cfg api meta).1)]) d
            = doi_count st.results d := by
          rw [doi_count_append, doi_count_single_ne _ _ hrdoi, Nat.add_zero]
        have hinv2 : DedupInv
            ⟨st.results ++ [doi_url_result ((enrich_oa cfg api meta).1)],
              st.seen_keys⟩ d := by
          constructor
          · show doi_count (st.results ++ _) d ≤ 1
            rw [hc1]; exact hinv.1
          · intro h1
            rw [show doi_count (st.results ++
                [doi_url_result ((enrich_oa cfg api meta).1)]) d
                = doi_count st.results d from hc1] at h1
            exact hinv.2 h1
        obtain ⟨hinvf, hmono, new2, hres⟩ := ih _ st2 h hinv2
        refine ⟨hinvf, hmono, doi_url_result ((enrich_oa cfg api meta).1) :: new2, ?_⟩
        rw [hres]; simp

theorem openalex_phase_spec (cfg : Config) (api : Api) (d : String) (hd : d ≠ "") :
    ∀ (items : List OpenAlexWork) (st : SearchSt), DedupInv st d →
      DedupInv (openalex_phase cfg api items st) d ∧
      ∃ new, (openalex_phase cfg api items st).results = st.results ++ new ∧
        (st.seen_keys.contains d = true → doi_count new d = 0) := by
  intro items
  induction items with
  | nil =>
    intro st hinv
    exact ⟨hinv, [], by show st.results = st.results ++ []; simp, fun _ => rfl⟩
  | cons w rest ih =>
    intro st hinv
    rw [openalex_phase_cons]
    by_cases hk : st.seen_keys.contains
        (pyOrStr (openalex_to_metadata w).doi (openalex_to_metadata w).title) = true
    · rw [if_pos hk]
      exact ih st hinv
    · rw [if_neg hk]
      have hm1doi :
          (if pyBool (openalex_to_metadata w).doi && !pyBool (openalex_to_metadata w).oa_url
           then (enrich_oa cfg api (openalex_to_metadata w)).1
           else openalex_to_metadata w).doi = (openalex_to_metadata w).doi := by
        split
        · exact enrich_oa_doi cfg api (openalex_to_metadata w)
        · rfl
      have hrdoi : result_doi (doi_url_result
          (if pyBool (openalex_to_metadata w).doi && !pyBool (openalex_to_metadata w).oa_url
           then (enrich_oa cfg api (openalex_to_metadata w)).1
           else openalex_to_metadata w)) = (openalex_to_metadata w).doi := by
        rw [result_doi_doi_url, hm1doi]
      by_cases hcase : (openalex_to_metadata w).doi = some d
      · have hkey : pyOrStr (openalex_to_metadata w).doi (openalex_to_metadata w).title = d := by
          rw [hcase]; simp [pyOrStr, hd]
        rw [hkey] at hk
        have hc0 : doi_count st.results d = 0 := by
          by_contra hne
          exact hk (hinv.2 (Nat.one_le_iff_ne_zero.mpr hne))
        have hinv2 : DedupInv
            ⟨st.results ++ [doi_url_result
              (if pyBool (openalex_to_metadata w).doi && !pyBool (openalex_to_metadata w).oa_url
               then (enrich_oa cfg api (openalex_to_metadata w)).1
               else openalex_to_metadata w)],
              pyOrStr (openalex_to_metadata w).doi (openalex_to_metadata w).title
                :: st.seen_keys⟩ d := by
          constructor
          · show doi_count (st.results ++ _) d ≤ 1
            rw [doi_count_append, hc0,
              doi_count_single_eq _ _ (by rw [hrdoi, hcase])]
          · intro _
            rw [hkey]
            exact contains_cons_self st.seen_keys d
        obtain ⟨hinvf, new2, hres2, _⟩ := ih _ hinv2
        refine ⟨hinvf, doi_url_result
            (if pyBool (openalex_to_metadata w).doi && !pyBool (openalex_to_metadata w).oa_url
             then (enrich_oa cfg api (openalex_to_metadata w)).1
             else openalex_to_metadata w) :: new2, ?_, ?_⟩
        · rw [hres2]; simp
        · intro hds
          exact absurd hds hk
      · have hrne : result_doi (doi_url_result
            (if pyBool (openalex_to_metadata w).doi && !pyBool (openalex_to_metadata w).oa_url
             then (enrich_oa cfg api (openalex_to_metadata w)).1
             else openalex_to_metadata w)) ≠ some d := by
          rw [hrdoi]; exact hcase
        have hc1 : doi_count (st.results ++ [doi_url_result
            (if pyBool (openalex_to_metadata w).doi && !pyBool (openalex_to_metadata w).oa_url
             then (enrich_oa cfg api (openalex_to_metadata w)).1
             else openalex_to_metadata w)]) d = doi_count st.results d := by
          rw [doi_count_append, doi_count_single_ne _ _ hrne, Nat.add_zero]
        have hinv2 : DedupInv
            ⟨st.results ++ [doi_url_result
              (if pyBool (openalex_to_metadata w).doi && !pyBool (openalex_to_metadata w).oa_url
               then (enrich_oa cfg api (openalex_to_metadata w)).1
               else openalex_to_metadata w)],
              pyOrStr (openalex_to_metadata w).doi (openalex_to_metadata w).title
                :: st.seen_keys⟩ d := by
          constructor
          · show doi_count (st.results ++ _) d ≤ 1
            rw [hc1]; exact hinv.1
          · intro h1
            rw [show doi_count _ d = doi_count st.results d from hc1] at h1
            exact contains_cons_of _ _ _ (hinv.2 h1)
        obtain ⟨hinvf, new2, hres2, hlast2⟩ := ih _ hinv2
        refine ⟨hinvf, doi_url_result
            (if pyBool (openalex_to_metadata w).doi && !pyBool (openalex_to_metadata w).oa_url
             then (enrich_oa cfg api (openalex_to_metadata w)).1
             else openalex_to_metadata w) :: new2, ?_, ?_⟩
        · rw [hres2]; simp
        · intro hds
          have hnew2 : doi_count new2 d = 0 :=
            hlast2 (contains_cons_of _ _ _ hds)
          show List.countP _ (_ :: new2) = 0
          rw [List.countP_cons]
          have hpred : (result_doi (doi_url_result
              (if pyBool (openalex_to_metadata w).doi && !pyBool (openalex_to_metadata w).oa_url
               then (enrich_oa cfg api (openalex_to_metadata w)).1
               else openalex_to_metadata w)) == some d) = false := by
            simpa using hrne
          rw [hpred]
          simpa [doi_count] using hnew2

/-- One-step unfolding of `search_ad_hoc` into its three phases. -/
theorem search_ad_hoc_eq (cfg : Config) (api : Api) (q : String) (n : Nat) :
    search_ad_hoc cfg api q n =
      match crossref_phase cfg api (api.crossref_search q (max (n / 3) 5))
          (arxiv_phase (arxiv_search api q (max (n / 3) 5)) ⟨[], []⟩) with
      | .error e => .error e
      | .ok st2 => .ok ((openalex_phase cfg api (api.openalex_search q (max (n / 3) 5))
          st2).results.take n) := rfl

/-- C1 (amended): in a `search_ad_hoc` result list, at most one record
carries any given (non-empty) DOI, and the earlier provider wins: once the
Crossref stage has produced a record with that DOI, the OpenAlex stage adds
no further record carrying it.  (Exactly-one fails: truncation to
`max_results` can drop the surviving record — see the counterexample.) -/
theorem claim_C1_dedup_at_most_one (cfg : Config) (api : Api) (q : String)
    (n : Nat) (d : String) (l : List ProcessingResult) (hd : d ≠ "")
    (h : search_ad_hoc cfg api q n = Except.ok l) :
    doi_count l d ≤ 1 ∧
    (∀ st2, crossref_phase cfg api (api.crossref_search q (max (n / 3) 5))
        (arxiv_phase (arxiv_search api q (max (n / 3) 5)) ⟨[], []⟩) = .ok st2 →
      1 ≤ doi_count st2.results d →
      doi_count (openalex_phase cfg api (api.openalex_search q (max (n / 3) 5))
          st2).results d = doi_count st2.results d) := by
  have harxdois : ∀ m ∈ arxiv_search api q (max (n / 3) 5), m.doi = none := by
    intro m hm
    obtain ⟨e, _, rfl⟩ := List.mem_map.mp hm
    exact atom_to_metadata_doi e
  have hinv1 : DedupInv (arxiv_phase (arxiv_search api q (max (n / 3) 5)) ⟨[], []⟩) d := by
    obtain ⟨hc, _⟩ := arxiv_phase_spec d (arxiv_search api q (max (n / 3) 5)) ⟨[], []⟩ harxdois
    constructor
    · rw [hc]; exact Nat.zero_le 1
    · intro h1; rw [hc] at h1; exact absurd h1 (by simp [doi_count])
  have hkey : ∀ st2, crossref_phase cfg api (api.crossref_search q (max (n / 3) 5))
      (arxiv_phase (arxiv_search api q (max (n / 3) 5)) ⟨[], []⟩) = .ok st2 →
      DedupInv st2 d :=
    fun st2 hcp => (crossref_phase_spec cfg api d hd _ _ st2 hcp hinv1).1
  constructor
  · rw [search_ad_hoc_eq] at h
    cases hcp : crossref_phase cfg api (api.crossref_search q (max (n / 3) 5))
        (arxiv_phase (arxiv_search api q (max (n / 3) 5)) ⟨[], []⟩) with
    | error e => simp only [hcp] at h; cases h
    | ok st2 =>
      simp only [hcp] at h
      obtain rfl : (openalex_phase cfg api (api.openalex_search q (max (n / 3) 5))
          st2).results.take n = l := Except.ok.inj h
      have hinv3 := (openalex_phase_spec cfg api d hd
        (api.openalex_search q (max (n / 3) 5)) st2 (hkey st2 hcp)).1
      exact le_trans
        (List.Sublist.countP_le _ (List.take_sublist n _)) hinv3.1
  · intro st2 hcp h1
    have hinv2 := hkey st2 hcp
    obtain ⟨_, new, hres, hzero⟩ := openalex_phase_spec cfg api d hd
      (api.openalex_search q (max (n / 3) 5)) st2 hinv2
    rw [hres, doi_count_append, hzero (hinv2.2 h1), Nat.add_zero]

def c1Api : Api :=
  { emptyApi with
    arxiv_entries := fun _ _ =>
      [{ title := some "T1" }, { title := some "T2" }, { title := some "T3" },
       { title := some "T4" }, { title := some "T5" }]
    crossref_search := fun _ _ => [{ title := ["A"], DOI := some "10.1/x" }]
    openalex_search := fun _ _ =>
      [{ title := some "B", doi := some "https://doi.org/10.1/x" }] }

/-- C1 counterexample: Crossref and OpenAlex both return an item with DOI
10.1/x, yet `search_ad_hoc` with `max_results = 3` returns a list with no
record for that DOI at all — the Crossref record survives dedup but is cut
by the final truncation (`per_source` has a floor of 5, so five arXiv
records precede it).  The claimed "exactly one record" fails. -/
theorem claim_C1_counterexample :
    ((c1Api.crossref_search "q" 5).map (fun i => i.DOI)) = [some "10.1/x"] ∧
    ((c1Api.openalex_search "q" 5).map (fun w => (openalex_to_metadata w).doi))
      = [some "10.1/x"] ∧
    (search_ad_hoc {} c1Api "q" 3).toOption.isSome = true ∧
    doi_count ((search_ad_hoc {} c1Api "q" 3).toOption.getD []) "10.1/x" = 0 := by
  exact ⟨rfl, rfl, rfl, rfl⟩

theorem claim_C1_witness :
    doi_count ([] : List ProcessingResult) "10.1/x" ≤ 1 :=
  (claim_C1_dedup_at_most_one {} emptyApi "q" 0 "10.1/x" [] (by decide) rfl).1

end PaperMentat
